import Mathlib

/-!
Verification development for the FileBox repository (Go).

The Go source (src/fid.go, src/filebox.go) is shallowly embedded below:
machine integers (uint32, int64) are modelled as `Nat` with explicit
`% 2 ^ 32` where Go arithmetic wraps; byte slices are `List Nat` with
each byte `< 256`; the in-memory registry map `files` and the on-disk
directory are modelled as association lists (Go map iteration order is
determinized to insertion order — the claims under study never depend on
map order); fallible operations return `Option` or `Except String`;
background goroutines (upload trigger, replication fan-out) are modelled
by explicit oracle parameters or by reported event lists, since the
claims address the sequential state transitions they perform.
-/

set_option maxRecDepth 10000

/-! ### Hexadecimal rendering and parsing (Go fmt %08x / encoding/hex) -/

/-- Lower-case hex digit character, as produced by Go fmt ("0123456789abcdef"). -/
def hexDigitChar (d : Nat) : Char :=
  if d < 10 then Char.ofNat (48 + d) else Char.ofNat (87 + d)

/-- Least-significant-first hex digits of a number; `fuel` bounds the recursion
and any `fuel ≥ n` computes the true digit list. Mirrors the digit loop inside
Go fmt integer formatting. -/
def hexLsdAux : Nat → Nat → List Nat
  | 0, _ => []
  | fuel + 1, n => if n = 0 then [] else n % 16 :: hexLsdAux fuel (n / 16)

/-- Least-significant-first hex digits of a number. -/
def hexLsd (n : Nat) : List Nat := hexLsdAux n n

/-- Minimal (no leading zeros) most-significant-first hex digits, with the Go
fmt convention that zero renders as the single digit 0. -/
def goHexMinDigits (n : Nat) : List Nat :=
  if n = 0 then [0] else (hexLsd n).reverse

/-- Go `fmt.Sprintf("%08x", n)`: minimal lower-case hex, left zero-padded to
width at least 8 (wider values are not truncated). -/
def goHex8 (n : Nat) : List Char :=
  let ds := goHexMinDigits n
  (List.replicate (8 - ds.length) 0 ++ ds).map hexDigitChar

/-- Go `encoding/hex` digit decoding (fromHexChar): accepts 0-9, a-f, A-F. -/
def decodeHexChar (c : Char) : Option Nat :=
  if '0' ≤ c ∧ c ≤ '9' then some (c.toNat - 48)
  else if 'a' ≤ c ∧ c ≤ 'f' then some (c.toNat - 87)
  else if 'A' ≤ c ∧ c ≤ 'F' then some (c.toNat - 55)
  else none

/-- Go `hex.DecodeString`: consumes characters two at a time producing bytes;
fails on a non-hex character or odd length. -/
def decodeHexPairs : List Char → Option (List Nat)
  | [] => some []
  | [_] => none
  | c1 :: c2 :: rest =>
    match decodeHexChar c1, decodeHexChar c2 with
    | some hi, some lo => (decodeHexPairs rest).map (fun bs => (hi * 16 + lo) :: bs)
    | _, _ => none

/-- Exactly `k` most-significant-first hex digits of `n` (specification device
used to reason about the zero-padded rendering). -/
def fixedHex : Nat → Nat → List Nat
  | 0, _ => []
  | k + 1, n => fixedHex k (n / 16) ++ [n % 16]

/-- Exactly `k` most-significant-first base-256 digits of `n` (specification
device for the byte level of the codec). -/
def fixedBytes : Nat → Nat → List Nat
  | 0, _ => []
  | k + 1, n => fixedBytes k (n / 256) ++ [n % 256]

/-! ### SHA-256 (crypto/sha256.Sum256), over byte lists

Pure FIPS 180-4 SHA-256. Words are `Nat` kept `< 2 ^ 32` by explicit masking,
mirroring the uint32 arithmetic of the Go library implementation. -/

/-- Right rotation of a 32-bit word. -/
def rotr32 (n x : Nat) : Nat := ((x >>> n) ||| (x <<< (32 - n))) % 2 ^ 32

/-- SHA-256 round constants. -/
def sha256K : List Nat :=
  [1116352408, 1899447441, 3049323471, 3921009573, 961987163,
   1508970993, 2453635748, 2870763221, 3624381080, 310598401,
   607225278, 1426881987, 1925078388, 2162078206, 2614888103,
   3248222580, 3835390401, 4022224774, 264347078, 604807628,
   770255983, 1249150122, 1555081692, 1996064986, 2554220882,
   2821834349, 2952996808, 3210313671, 3336571891, 3584528711,
   113926993, 338241895, 666307205, 773529912, 1294757372,
   1396182291, 1695183700, 1986661051, 2177026350, 2456956037,
   2730485921, 2820302411, 3259730800, 3345764771, 3516065817,
   3600352804, 4094571909, 275423344, 430227734, 506948616,
   659060556, 883997877, 958139571, 1322822218, 1537002063,
   1747873779, 1955562222, 2024104815, 2227730452, 2361852424,
   2428436474, 2756734187, 3204031479, 3329325298]

/-- SHA-256 initial hash value. -/
def sha256H0 : List Nat :=
  [1779033703, 3144134277, 1013904242, 2773480762, 1359893119,
   2600822924, 528734635, 1541459225]

/-- Big-endian 4-byte groups to 32-bit words. -/
def bytesToWords : List Nat → List Nat
  | b0 :: b1 :: b2 :: b3 :: rest =>
    (b0 * 2 ^ 24 + b1 * 2 ^ 16 + b2 * 2 ^ 8 + b3) :: bytesToWords rest
  | _ => []

/-- Big-endian bytes of a 32-bit word. -/
def wordToBytes (w : Nat) : List Nat :=
  [w / 2 ^ 24 % 256, w / 2 ^ 16 % 256, w / 2 ^ 8 % 256, w % 256]

/-- Extend the (reversed) message schedule by `n` further words. -/
def sha256Extend : Nat → List Nat → List Nat
  | 0, ws => ws
  | n + 1, ws =>
    let s0 :=
      rotr32 7 (ws.getD 14 0) ^^^ rotr32 18 (ws.getD 14 0) ^^^ (ws.getD 14 0 >>> 3)
    let s1 :=
      rotr32 17 (ws.getD 1 0) ^^^ rotr32 19 (ws.getD 1 0) ^^^ (ws.getD 1 0 >>> 10)
    sha256Extend n (((ws.getD 15 0 + s0 + ws.getD 6 0 + s1) % 2 ^ 32) :: ws)

/-- One SHA-256 round; the state is the word list [a,b,c,d,e,f,g,h]. -/
def sha256Round (st : List Nat) (kw : Nat × Nat) : List Nat :=
  let a := st.getD 0 0
  let b := st.getD 1 0
  let c := st.getD 2 0
  let d := st.getD 3 0
  let e := st.getD 4 0
  let f := st.getD 5 0
  let g := st.getD 6 0
  let h := st.getD 7 0
  let S1 := rotr32 6 e ^^^ rotr32 11 e ^^^ rotr32 25 e
  let ch := (e &&& f) ^^^ ((2 ^ 32 - 1 - e) &&& g)
  let t1 := (h + S1 + ch + kw.1 + kw.2) % 2 ^ 32
  let S0 := rotr32 2 a ^^^ rotr32 13 a ^^^ rotr32 22 a
  let mj := (a &&& b) ^^^ (a &&& c) ^^^ (b &&& c)
  let t2 := (S0 + mj) % 2 ^ 32
  [(t1 + t2) % 2 ^ 32, a, b, c, (d + t1) % 2 ^ 32, e, f, g]

/-- Compress one 64-byte chunk into the running hash. -/
def sha256Compress (h : List Nat) (chunk : List Nat) : List Nat :=
  let w16 := bytesToWords chunk
  let w := (sha256Extend 48 w16.reverse).reverse
  let st := (sha256K.zip w).foldl sha256Round h
  (h.zip st).map (fun p => (p.1 + p.2) % 2 ^ 32)

/-- Split into 64-byte chunks; `fuel` bounds the recursion. -/
def chunks64 : Nat → List Nat → List (List Nat)
  | 0, _ => []
  | _ + 1, [] => []
  | fuel + 1, l => l.take 64 :: chunks64 fuel (l.drop 64)

/-- SHA-256 padding: 0x80, zeros, and the 64-bit big-endian bit length. -/
def sha256Pad (msg : List Nat) : List Nat :=
  let l := msg.length
  let k := (64 - (l + 9) % 64) % 64
  msg ++ [0x80] ++ List.replicate k 0 ++
    [8 * l / 2 ^ 56 % 256, 8 * l / 2 ^ 48 % 256, 8 * l / 2 ^ 40 % 256,
     8 * l / 2 ^ 32 % 256, 8 * l / 2 ^ 24 % 256, 8 * l / 2 ^ 16 % 256,
     8 * l / 2 ^ 8 % 256, 8 * l % 256]

/-- SHA-256 digest (32 bytes) of a byte list. -/
def sha256 (msg : List Nat) : List Nat :=
  let padded := sha256Pad msg
  let hs := (chunks64 (padded.length + 64) padded).foldl sha256Compress sha256H0
  (hs.map wordToBytes).flatten

/-! ### FID (src/fid.go) -/

/-- FID represents a File ID with embedded metadata (src/fid.go). `MachineID`
and `Sequence` are Go uint32; `Timestamp` is a Go int64 holding a Unix time —
every value the program ever stores there (generation uses the wall clock,
parsing decodes four bytes) is nonnegative, so it is modelled as `Nat`.
`Hash` is a Go [8]byte, modelled as a byte list of length 8. -/
structure FID where
  machineID : Nat
  timestamp : Nat
  sequence : Nat
  hash : List Nat
deriving DecidableEq, Repr

/-- Hash input string of GenerateWithMachineID:
`fmt.Sprintf("%d-%d-%d", now, seq, machineID)`, as bytes. -/
def fidHashInput (now seq machineID : Nat) : List Nat :=
  (Nat.repr now ++ "-" ++ Nat.repr seq ++ "-" ++ Nat.repr machineID).toList.map Char.toNat

/-- GenerateWithMachineID (src/fid.go): reads the clock (`now`, a parameter of
the model), increments the process-wide uint32 sequence counter (passed in and
returned explicitly; Go `atomic.AddUint32` wraps modulo 2^32), and fills all
fields, with the hash being the first 8 bytes of SHA-256 of the encoded
triple. Returns the FID together with the new counter value. -/
def GenerateWithMachineID (machineID now counter : Nat) : FID × Nat :=
  let seq := (counter + 1) % 2 ^ 32
  ({ machineID := machineID, timestamp := now, sequence := seq,
     hash := (sha256 (fidHashInput now seq machineID)).take 8 }, seq)

/-- FID.String (src/fid.go): `fmt.Sprintf("%08x%08x%08x%08x", MachineID,
Timestamp, Sequence, Hash[0]<<24|Hash[1]<<16|Hash[2]<<8|Hash[3])`. -/
def FID.toHexString (f : FID) : String :=
  let hw := (f.hash.getD 0 0) <<< 24 ||| (f.hash.getD 1 0) <<< 16 |||
            (f.hash.getD 2 0) <<< 8 ||| f.hash.getD 3 0
  String.mk (goHex8 f.machineID ++ goHex8 f.timestamp ++ goHex8 f.sequence ++ goHex8 hw)

/-- ParseFID (src/fid.go): requires exactly 32 characters, hex-decodes them,
requires 16 bytes, and unpacks the three big-endian 4-byte fields; the last 4
bytes are copied into the 8-byte hash array whose tail stays zero. -/
def ParseFID (s : String) : Option FID :=
  if s.length = 32 then
    match decodeHexPairs s.toList with
    | none => none
    | some bytes =>
      if bytes.length = 16 then
        some { machineID := (bytes.getD 0 0) <<< 24 ||| (bytes.getD 1 0) <<< 16 |||
                            (bytes.getD 2 0) <<< 8 ||| bytes.getD 3 0,
               timestamp := (bytes.getD 4 0) <<< 24 ||| (bytes.getD 5 0) <<< 16 |||
                            (bytes.getD 6 0) <<< 8 ||| bytes.getD 7 0,
               sequence := (bytes.getD 8 0) <<< 24 ||| (bytes.getD 9 0) <<< 16 |||
                           (bytes.getD 10 0) <<< 8 ||| bytes.getD 11 0,
               hash := bytes.drop 12 ++ List.replicate 4 0 }
      else none
  else none

/-! ### FileBox state model (src/filebox.go)

The registry map `files` and the filesystem are association lists keyed by
container-id string and file path respectively. `now` models the wall clock
and `counter` the process-wide FID sequence counter. -/

deriving instance DecidableEq for Except

/-- BlobInfo (src/filebox.go): one blob within a container file. -/
structure BlobInfo where
  id : String
  offset : Nat
  length : Nat
  size : Nat
deriving DecidableEq, Repr

/-- ContainerFile (src/filebox.go): descriptor of one container. Times are
Unix seconds as `Nat`. -/
structure ContainerFile where
  fid : FID
  filePath : String
  size : Nat
  created : Nat
  uploaded : Bool
  uploading : Bool
  blobs : List BlobInfo
deriving DecidableEq, Repr

/-- BlobResponse (src/filebox.go): reply of AddBlob. -/
structure BlobResponse where
  id : String
  size : Nat
  created : Nat
  fileID : String
deriving DecidableEq, Repr

/-- FileBox (src/filebox.go): registry plus the modelled filesystem and the
ambient generation state (clock and sequence counter). `hostID` is the
per-process host identifier; the S3 client and bucket are external. -/
structure FileBox where
  storageDir : String
  maxFileSize : Nat
  hostID : String
  machineID : Nat
  files : List (String × ContainerFile)
  disk : List (String × List Nat)
  now : Nat
  counter : Nat
deriving DecidableEq, Repr

/-- First-match association-list lookup (Go map read). -/
def lookupA {α : Type} : List (String × α) → String → Option α
  | [], _ => none
  | (k', v') :: rest, k => if k' = k then some v' else lookupA rest k

/-- Association-list store (Go map write): replace the binding in place if the
key is present, append otherwise. -/
def insertA {α : Type} : List (String × α) → String → α → List (String × α)
  | [], k, v => [(k, v)]
  | (k', v') :: rest, k, v =>
    if k' = k then (k, v) :: rest else (k', v') :: insertA rest k v

/-- Positional file write with POSIX semantics (seek then write): zero-fill up
to `off` if the file is shorter, overwrite `data.length` bytes at `off`, keep
any bytes beyond. -/
def writeAt (contents : List Nat) (off : Nat) (data : List Nat) : List Nat :=
  let padded := contents ++ List.replicate (off - contents.length) 0
  padded.take off ++ data ++ padded.drop (off + data.length)

/-- getOrCreateContainerFile (src/filebox.go:123): scan the registry for the
first container that is neither uploaded nor uploading and has room for
`requiredSpace` more bytes; otherwise generate a fresh FID for this host and
register an empty descriptor under its hex string. Returns the chosen
descriptor, its registry key, and the updated box. -/
def getOrCreateContainerFile (fb : FileBox) (requiredSpace : Nat) :
    ContainerFile × String × FileBox :=
  match fb.files.find? (fun kv =>
      !kv.2.uploaded && !kv.2.uploading && kv.2.size + requiredSpace ≤ fb.maxFileSize) with
  | some (k, f) => (f, k, fb)
  | none =>
    let gen := GenerateWithMachineID fb.machineID fb.now fb.counter
    let fidStr := gen.1.toHexString
    let cf : ContainerFile :=
      { fid := gen.1, filePath := fb.storageDir ++ "/" ++ fidStr, size := 0,
        created := fb.now, uploaded := false, uploading := false, blobs := [] }
    (cf, fidStr, { fb with files := insertA fb.files fidStr cf, counter := gen.2 })

/-- AddBlob (src/filebox.go:153): reject blobs larger than the maximum
container size before any allocation; otherwise acquire a container
(re-acquiring if the capacity double-check fails), append the bytes to its
file, record the blob locator `"<fid>-<ordinal>"` with the pre-write size as
offset, and grow the recorded size. The asynchronous upload trigger and
replication fan-out goroutines (src/filebox.go:204-209) mutate no registry
state in AddBlob itself and are omitted from this sequential model. -/
def AddBlob (fb : FileBox) (blobData : List Nat) :
    Except String BlobResponse × FileBox :=
  let requiredSpace := blobData.length
  if requiredSpace > fb.maxFileSize then
    (.error ("blob size " ++ Nat.repr requiredSpace ++
      " exceeds maximum file size " ++ Nat.repr fb.maxFileSize), fb)
  else
    let acq := getOrCreateContainerFile fb requiredSpace
    let acq :=
      if acq.1.size + requiredSpace ≤ acq.2.2.maxFileSize then acq
      else getOrCreateContainerFile acq.2.2 requiredSpace
    let cf := acq.1
    let key := acq.2.1
    let fb1 := acq.2.2
    let contents := (lookupA fb1.disk cf.filePath).getD []
    let offset := cf.size
    let len := blobData.length
    let blobID := cf.fid.toHexString ++ "-" ++ Nat.repr cf.blobs.length
    let bi : BlobInfo := { id := blobID, offset := offset, length := len, size := len }
    let cf' := { cf with blobs := cf.blobs ++ [bi], size := cf.size + len }
    let fb2 := { fb1 with files := insertA fb1.files key cf',
                          disk := insertA fb1.disk cf.filePath (contents ++ blobData) }
    (.ok { id := blobID, size := len, created := fb.now, fileID := cf.fid.toHexString }, fb2)

/-- Go `strings.Split(s, "-")` on the character list: splits at every dash;
no dash yields the single original piece. -/
def splitDash : List Char → List (List Char)
  | [] => [[]]
  | c :: rest =>
    let r := splitDash rest
    if c = '-' then [] :: r
    else
      match r with
      | [] => [[c]]
      | h :: t => (c :: h) :: t

/-- Go `strings.Join(parts, "-")` on character lists. -/
def joinDash (parts : List (List Char)) : List Char :=
  (parts.intersperse ['-']).flatten

/-- GetBlob (src/filebox.go:220): split the locator on dashes; fewer than two
pieces is malformed; the container id is the join of all pieces but the last,
and the blob index used is the number of pieces minus one (the code never
reads the numeric value of the final piece). Look up the container, bounds
check the index, open the container file, seek to the stored offset and read
exactly `length` bytes. -/
def GetBlob (fb : FileBox) (blobID : String) : Except String (List Nat) :=
  let parts := splitDash blobID.toList
  if parts.length < 2 then .error "invalid blob ID format"
  else
    let fileID := String.mk (joinDash (parts.take (parts.length - 1)))
    let blobIndex := parts.length - 1
    match lookupA fb.files fileID with
    | none => .error ("container file not found: " ++ fileID)
    | some cf =>
      if cf.blobs.length ≤ blobIndex then .error "blob index out of range"
      else
        let bi := cf.blobs.getD blobIndex { id := "", offset := 0, length := 0, size := 0 }
        match lookupA fb.disk cf.filePath with
        | none => .error "error opening container file"
        | some contents =>
          if contents.length < bi.offset + bi.length then .error "error reading blob data"
          else .ok ((contents.drop bi.offset).take bi.length)

/-- uploadContainerFile (src/filebox.go:334): no-op when the container is
unknown, already uploaded, or mid-upload; otherwise set the uploading flag,
compute the S3 key from the creator machine id embedded in the FID and the
container id, open the file and stream it to the object store. The two I/O
outcomes are oracle parameters: `openOk` (does opening the container file
succeed) and `putOk` (does the object-store put succeed). On open failure the
function returns at once; on put failure the uploading flag is reset; on
success uploaded is set and uploading cleared. The second component reports
the key passed to the object store, if the put was attempted at all. -/
def uploadContainerFile (fb : FileBox) (fileID : String) (openOk putOk : Bool) :
    FileBox × Option String :=
  match lookupA fb.files fileID with
  | none => (fb, none)
  | some cf =>
    if cf.uploaded || cf.uploading then (fb, none)
    else
      let cf1 := { cf with uploading := true }
      let fb1 := { fb with files := insertA fb.files fileID cf1 }
      let s3Key := "files/" ++ Nat.repr cf.fid.machineID ++ "/" ++ fileID
      if !openOk then (fb1, none)
      else if !putOk then
        ({ fb1 with files := insertA fb1.files fileID { cf1 with uploading := false } },
         some s3Key)
      else
        ({ fb1 with files :=
             insertA fb1.files fileID { cf1 with uploading := false, uploaded := true } },
         some s3Key)

/-- One directory entry seen by the recovery scan, with the result of
`os.Stat`: `none` models a stat failure, `some (size, modTime)` success. -/
structure DirEntry where
  name : String
  isDir : Bool
  stat : Option (Nat × Nat)
deriving DecidableEq, Repr

/-- One step of recoverFiles (src/filebox.go:391-430) over a single directory
entry: skip directories, names that fail to parse as a FID, foreign machine
ids, and entries whose stat fails; otherwise register a descriptor built from
the file size and modification time with an empty blob list, and (since the
freshly built descriptor always has Uploaded = false) queue its upload. -/
def recoverStep (machineID : Nat) (storageDir : String)
    (acc : List (String × ContainerFile) × List String) (e : DirEntry) :
    List (String × ContainerFile) × List String :=
  if e.isDir then acc
  else
    match ParseFID e.name with
    | none => acc
    | some fid =>
      if fid.machineID ≠ machineID then acc
      else
        match e.stat with
        | none => acc
        | some st =>
          let cf : ContainerFile :=
            { fid := fid, filePath := storageDir ++ "/" ++ e.name, size := st.1,
              created := st.2, uploaded := false, uploading := false, blobs := [] }
          (insertA acc.1 e.name cf,
           acc.2 ++ if cf.uploaded then [] else [e.name])

/-- recoverFiles (src/filebox.go:384): fold the recovery step over the
directory listing, starting from the current registry; returns the new
registry together with the container ids queued for upload. -/
def recoverFiles (fb : FileBox) (entries : List DirEntry) :
    FileBox × List String :=
  let r := entries.foldl (recoverStep fb.machineID fb.storageDir) (fb.files, [])
  ({ fb with files := r.1 }, r.2)

/-- handleReplicate (src/filebox.go:482): given the replicated payload and its
metadata, look up the container; if absent, parse the id (rejecting with 400
on failure), and register a descriptor with zero size and no blobs whose path
is derived from the id string alone. Then open the file (creating it if
needed), seek to `offset`, write the payload bytes, and finally raise the
recorded size to `offset + length` if that exceeds it. Returns the new state
and the HTTP status code. -/
def handleReplicate (fb : FileBox) (fileID : String) (offset length : Nat)
    (blobData : List Nat) : FileBox × Nat :=
  if fileID = "" then (fb, 400)
  else
    let found :=
      match lookupA fb.files fileID with
      | some cf => some (cf, fb)
      | none =>
        match ParseFID fileID with
        | none => none
        | some fid =>
          let cf : ContainerFile :=
            { fid := fid, filePath := fb.storageDir ++ "/" ++ fileID, size := 0,
              created := fb.now, uploaded := false, uploading := false, blobs := [] }
          some (cf, { fb with files := insertA fb.files fileID cf })
    match found with
    | none => (fb, 400)
    | some (cf, fb1) =>
      let contents := (lookupA fb1.disk cf.filePath).getD []
      let disk' := insertA fb1.disk cf.filePath (writeAt contents offset blobData)
      let cf' := if cf.size < offset + length then { cf with size := offset + length } else cf
      ({ fb1 with files := insertA fb1.files fileID cf', disk := disk' }, 200)

/-! ### Concrete fixtures used by closed theorems and witnesses -/

/-- A 32-hex-zero container id (a valid FID string with machine id 0). -/
def zeroFIDStr : String := "00000000000000000000000000000000"

/-- The FID carried by the fixtures below. -/
def zeroFID : FID :=
  { machineID := 0, timestamp := 0, sequence := 0, hash := List.replicate 8 0 }

/-- Empty FileBox with the maximum container size set to 100 bytes. -/
def fbEmpty100 : FileBox :=
  { storageDir := "files", maxFileSize := 100, hostID := "host-a", machineID := 0,
    files := [], disk := [], now := 0, counter := 0 }

/-- Container holding exactly one recorded blob, locator ordinal 0,
bytes [1, 2, 3] at offset 0. -/
def cfOneBlob : ContainerFile :=
  { fid := zeroFID, filePath := "files/" ++ zeroFIDStr, size := 3, created := 0,
    uploaded := false, uploading := false,
    blobs := [{ id := zeroFIDStr ++ "-0", offset := 0, length := 3, size := 3 }] }

/-- Box holding `cfOneBlob` with its bytes on disk. -/
def fbOneBlob : FileBox :=
  { storageDir := "files", maxFileSize := 100, hostID := "host-a", machineID := 0,
    files := [(zeroFIDStr, cfOneBlob)],
    disk := [("files/" ++ zeroFIDStr, [1, 2, 3])], now := 0, counter := 1 }

/-- Container holding two recorded blobs: ordinal 0 has bytes [1, 2, 3] at
offset 0, ordinal 1 has bytes [4, 5, 6] at offset 3. -/
def cfTwoBlobs : ContainerFile :=
  { fid := zeroFID, filePath := "files/" ++ zeroFIDStr, size := 6, created := 0,
    uploaded := false, uploading := false,
    blobs := [{ id := zeroFIDStr ++ "-0", offset := 0, length := 3, size := 3 },
              { id := zeroFIDStr ++ "-1", offset := 3, length := 3, size := 3 }] }

/-- Box holding `cfTwoBlobs` with its bytes on disk. -/
def fbTwoBlobs : FileBox :=
  { storageDir := "files", maxFileSize := 100, hostID := "host-a", machineID := 0,
    files := [(zeroFIDStr, cfTwoBlobs)],
    disk := [("files/" ++ zeroFIDStr, [1, 2, 3, 4, 5, 6])], now := 0, counter := 1 }

/-- A container in the NotUploaded state (both flags clear), not yet full. -/
def cfIdle : ContainerFile :=
  { fid := zeroFID, filePath := "files/" ++ zeroFIDStr, size := 50, created := 0,
    uploaded := false, uploading := false, blobs := [] }

/-- Box holding `cfIdle` registered under its id. -/
def fbIdle : FileBox :=
  { storageDir := "files", maxFileSize := 100, hostID := "host-a", machineID := 0,
    files := [(zeroFIDStr, cfIdle)], disk := [], now := 0, counter := 1 }

/-- The same registered container viewed by a different host: distinct host
id and machine id, same container descriptor. -/
def fbIdleOtherHost : FileBox :=
  { storageDir := "files", maxFileSize := 100, hostID := "host-b", machineID := 99,
    files := [(zeroFIDStr, cfIdle)], disk := [], now := 77, counter := 5 }

/-- Specification device for the recovery scan: the descriptor that one
directory entry contributes, if any — `none` exactly when recoverFiles skips
the entry (directory, unparseable name, foreign machine id, or stat failure),
otherwise the registered descriptor keyed by the entry name. -/
def recoveredDesc (machineID : Nat) (storageDir : String) (e : DirEntry) :
    Option (String × ContainerFile) :=
  if e.isDir then none
  else
    match ParseFID e.name with
    | none => none
    | some fid =>
      if fid.machineID ≠ machineID then none
      else
        match e.stat with
        | none => none
        | some st =>
          some (e.name,
            { fid := fid, filePath := storageDir ++ "/" ++ e.name, size := st.1,
              created := st.2, uploaded := false, uploading := false, blobs := [] })

/-- Storage-root listing used by the recovery witness: one container owned by
machine 0, one foreign container (machine 1), one unparseable name, one
subdirectory. -/
def recEntries : List DirEntry :=
  [{ name := zeroFIDStr, isDir := false, stat := some (5, 6) },
   { name := "00000001000000000000000000000000", isDir := false, stat := some (7, 8) },
   { name := "zz", isDir := false, stat := some (9, 10) },
   { name := "sub", isDir := true, stat := none }]

/-- Counter evolution of repeated FID generation within one process: the
value of the process-wide uint32 sequence counter after `n` generations
starting from `c0`, where the clock reads `times i` at the i-th generation.
The counter update (atomic add modulo 2 ^ 32) does not depend on the clock or
the machine id, but the run mirrors the Go call sequence. -/
def runCounter (m : Nat) (times : Nat → Nat) (c0 : Nat) : Nat → Nat
  | 0 => c0
  | n + 1 => (GenerateWithMachineID m (times n) (runCounter m times c0 n)).2

/-- The identifier produced by the n-th generation (0-indexed) of that run. -/
def runFID (m : Nat) (times : Nat → Nat) (c0 : Nat) (n : Nat) : FID :=
  (GenerateWithMachineID m (times n) (runCounter m times c0 n)).1

/-! ### Association list lemmas -/

theorem lookupA_insertA_self {α : Type} (l : List (String × α)) (k : String) (v : α) :
    lookupA (insertA l k v) k = some v := by
  induction l with
  | nil => simp [insertA, lookupA]
  | cons kv rest ih =>
    by_cases h : kv.1 = k
    · simp [insertA, lookupA, h]
    · simp [insertA, lookupA, h, ih]

theorem lookupA_eq_none_iff {α : Type} (l : List (String × α)) (k : String) :
    lookupA l k = none ↔ k ∉ l.map Prod.fst := by
  induction l with
  | nil => simp [lookupA]
  | cons kv rest ih =>
    by_cases h : kv.1 = k
    · simp [lookupA, h]
    · simp [lookupA, h, ih, Ne.symm h]

theorem insertA_of_lookupA_none {α : Type} (l : List (String × α)) (k : String) (v : α)
    (h : lookupA l k = none) : insertA l k v = l ++ [(k, v)] := by
  induction l with
  | nil => simp [insertA]
  | cons kv rest ih =>
    by_cases hk : kv.1 = k
    · simp [lookupA, hk] at h
    · simp [lookupA, hk] at h
      simp [insertA, hk, ih h]

theorem lookupA_append {α : Type} (l1 l2 : List (String × α)) (k : String) :
    lookupA (l1 ++ l2) k =
      match lookupA l1 k with
      | some v => some v
      | none => lookupA l2 k := by
  induction l1 with
  | nil => simp [lookupA]
  | cons kv rest ih =>
    by_cases h : kv.1 = k
    · simp [lookupA, h]
    · simp [lookupA, h, ih]

theorem lookupA_of_mem_nodup {α : Type} (l : List (String × α)) (k : String) (v : α)
    (hnd : (l.map Prod.fst).Nodup) (hm : (k, v) ∈ l) : lookupA l k = some v := by
  induction l with
  | nil => simp at hm
  | cons kv rest ih =>
    simp only [List.map_cons, List.nodup_cons] at hnd
    rcases List.mem_cons.mp hm with h | h
    · simp [lookupA, ← h]
    · have hk : kv.1 ≠ k := by
        intro he
        exact hnd.1 (he ▸ (List.mem_map.mpr ⟨(k, v), h, rfl⟩))
      simp [lookupA, hk, ih hnd.2 h]

/-! ### Claim C1 — GetBlob and the locator ordinal -/

/-- Claim C1 (refuting evaluation): GetBlob does not resolve the numeric
ordinal of a locator. For the container holding exactly one blob whose
locator is `<id>-0` with recorded bytes [1, 2, 3], GetBlob on that very
locator fails with the out-of-range error instead of returning the bytes;
with two recorded blobs, locator `<id>-0` returns the bytes of ordinal 1
([4, 5, 6]), not the bytes recorded for ordinal 0 ([1, 2, 3]), because the
code uses the number of dash-separated pieces minus one as the index. -/
theorem getBlob_ignores_ordinal :
    GetBlob fbOneBlob (zeroFIDStr ++ "-0") = .error "blob index out of range" ∧
    GetBlob fbTwoBlobs (zeroFIDStr ++ "-0") = .ok [4, 5, 6] ∧
    GetBlob fbTwoBlobs (zeroFIDStr ++ "-0") ≠ .ok [1, 2, 3] ∧
    GetBlob fbTwoBlobs (zeroFIDStr ++ "-1") = .ok [4, 5, 6] := by
  decide

/-! ### Claim C2 — upload state machine failure transitions -/

/-- Claim C2 (refuting evaluation): on a simulated object-store put failure
the container does return from Uploading to NotUploaded and a retry can
succeed, and on success the transitions are NotUploaded, Uploading, Uploaded;
but when opening the container file fails, the code returns without clearing
the uploading flag, so the container stays in the Uploading state and every
subsequent trigger is a no-op: the container is stuck permanently. -/
theorem upload_open_failure_leaves_uploading :
    (uploadContainerFile fbIdle zeroFIDStr false true).1.files =
      [(zeroFIDStr, { cfIdle with uploading := true })] ∧
    uploadContainerFile (uploadContainerFile fbIdle zeroFIDStr false true).1
        zeroFIDStr true true =
      ((uploadContainerFile fbIdle zeroFIDStr false true).1, none) ∧
    (uploadContainerFile fbIdle zeroFIDStr true false).1.files =
      [(zeroFIDStr, cfIdle)] ∧
    (uploadContainerFile fbIdle zeroFIDStr true true).1.files =
      [(zeroFIDStr, { cfIdle with uploaded := true })] ∧
    (uploadContainerFile (uploadContainerFile fbIdle zeroFIDStr true false).1
        zeroFIDStr true true).1.files =
      [(zeroFIDStr, { cfIdle with uploaded := true })] := by
  decide

/-! ### Claim C3 — first-fit allocation scenarios at maximum size 100 -/

/-- Claim C3: with maximum container size 100 and an empty registry,
submitting blobs of sizes 60 then 60 places them in two distinct containers;
submitting 40, 40, 40 places the first two in one container (whose size is
then 80) and the third in a newly created second container, by the first-fit
scan over containers that are neither uploading nor uploaded. -/
theorem allocation_first_fit_scenarios :
    (let a1 := AddBlob fbEmpty100 (List.replicate 60 7)
     let a2 := AddBlob a1.2 (List.replicate 60 7)
     a1.1.toOption.map BlobResponse.fileID ≠ none ∧
     a2.1.toOption.map BlobResponse.fileID ≠ none ∧
     a1.1.toOption.map BlobResponse.fileID ≠ a2.1.toOption.map BlobResponse.fileID ∧
     a2.2.files.map (fun kv => kv.2.size) = [60, 60]) ∧
    (let b1 := AddBlob fbEmpty100 (List.replicate 40 1)
     let b2 := AddBlob b1.2 (List.replicate 40 2)
     let b3 := AddBlob b2.2 (List.replicate 40 3)
     b1.1.toOption.map BlobResponse.fileID ≠ none ∧
     b1.1.toOption.map BlobResponse.fileID = b2.1.toOption.map BlobResponse.fileID ∧
     b2.2.files.map (fun kv => kv.2.size) = [80] ∧
     b3.1.toOption.map BlobResponse.fileID ≠ b1.1.toOption.map BlobResponse.fileID ∧
     b3.2.files.map (fun kv => kv.2.size) = [80, 40]) := by
  decide

/-! ### Claim C8 — oversized blobs are rejected up front -/

/-- Claim C8: a blob strictly larger than the maximum container size is
rejected with the oversize error before any container is selected or
created; the whole state (registry and disk) is returned unchanged, so no
bytes are written. -/
theorem addBlob_rejects_oversized (fb : FileBox) (blobData : List Nat)
    (h : fb.maxFileSize < blobData.length) :
    AddBlob fb blobData =
      (.error ("blob size " ++ Nat.repr blobData.length ++
        " exceeds maximum file size " ++ Nat.repr fb.maxFileSize), fb) := by
  simp [AddBlob, h]

/-- Witness for `addBlob_rejects_oversized` at a 101-byte blob against the
100-byte maximum. -/
theorem addBlob_rejects_oversized_witness :
    fbEmpty100.maxFileSize < (List.replicate 101 1).length ∧
    AddBlob fbEmpty100 (List.replicate 101 1) =
      (.error ("blob size " ++ Nat.repr 101 ++
        " exceeds maximum file size " ++ Nat.repr 100), fbEmpty100) :=
  ⟨by decide, addBlob_rejects_oversized fbEmpty100 (List.replicate 101 1) (by decide)⟩

/-! ### Claim C10 — a blob of exactly the maximum size is accepted -/

/-- Claim C10: a blob whose size equals the maximum container size passes the
strict oversize check, and starting from an empty registry it is placed in a
freshly created container which it fills completely (the capacity check
accepts size plus required equal to the maximum). -/
theorem addBlob_exact_max_fills_fresh_container (fb : FileBox) (blobData : List Nat)
    (hempty : fb.files = []) (hlen : blobData.length = fb.maxFileSize) :
    (∃ resp, (AddBlob fb blobData).1 = .ok resp ∧ resp.size = fb.maxFileSize) ∧
    (∃ key cf, (AddBlob fb blobData).2.files = [(key, cf)] ∧ cf.size = fb.maxFileSize ∧
       cf.blobs.length = 1) := by
  simp [AddBlob, getOrCreateContainerFile, hempty, hlen, insertA]
  exact ⟨_, _, ⟨rfl, rfl⟩, rfl, rfl⟩

/-- Witness for `addBlob_exact_max_fills_fresh_container` at a 100-byte blob
against the 100-byte maximum. -/
theorem addBlob_exact_max_fills_fresh_container_witness :
    fbEmpty100.files = [] ∧ (List.replicate 100 1).length = fbEmpty100.maxFileSize ∧
    ((∃ resp, (AddBlob fbEmpty100 (List.replicate 100 1)).1 = .ok resp ∧
        resp.size = fbEmpty100.maxFileSize) ∧
     (∃ key cf, (AddBlob fbEmpty100 (List.replicate 100 1)).2.files = [(key, cf)] ∧
        cf.size = fbEmpty100.maxFileSize ∧ cf.blobs.length = 1)) :=
  ⟨by decide, by decide,
   addBlob_exact_max_fills_fresh_container fbEmpty100 (List.replicate 100 1)
     (by decide) (by decide)⟩

/-! ### Claim C5 — object-store key shape and host independence -/

/-- Claim C5: when a registered container in the NotUploaded state is
uploaded, the object-store key it is put under is exactly
"files/" plus the decimal creator machine id embedded in the container FID
plus "/" plus the container id string; and any other box holding a container
with the same embedded creator machine id under the same id — whatever its
own host id or machine id, and whatever the put outcome — uses the same key. -/
theorem upload_key_depends_only_on_fid
    (fb fb2 : FileBox) (fileID : String) (cf cf2 : ContainerFile) (putOk putOk2 : Bool)
    (h : lookupA fb.files fileID = some cf) (h1 : cf.uploaded = false)
    (h2 : cf.uploading = false)
    (g : lookupA fb2.files fileID = some cf2) (g1 : cf2.uploaded = false)
    (g2 : cf2.uploading = false)
    (hfid : cf2.fid.machineID = cf.fid.machineID) :
    (uploadContainerFile fb fileID true putOk).2 =
      some ("files/" ++ Nat.repr cf.fid.machineID ++ "/" ++ fileID) ∧
    (uploadContainerFile fb2 fileID true putOk2).2 =
      (uploadContainerFile fb fileID true putOk).2 := by
  cases putOk <;> cases putOk2 <;>
    simp [uploadContainerFile, h, h1, h2, g, g1, g2, hfid]

/-- Witness for `upload_key_depends_only_on_fid`: two boxes on different
hosts (host ids "host-a" and "host-b", machine ids 0 and 99) holding the
same container compute the identical key. -/
theorem upload_key_depends_only_on_fid_witness :
    lookupA fbIdle.files zeroFIDStr = some cfIdle ∧ cfIdle.uploaded = false ∧
    cfIdle.uploading = false ∧
    lookupA fbIdleOtherHost.files zeroFIDStr = some cfIdle ∧
    fbIdle.hostID ≠ fbIdleOtherHost.hostID ∧
    fbIdle.machineID ≠ fbIdleOtherHost.machineID ∧
    ((uploadContainerFile fbIdle zeroFIDStr true true).2 =
       some ("files/" ++ Nat.repr cfIdle.fid.machineID ++ "/" ++ zeroFIDStr) ∧
     (uploadContainerFile fbIdleOtherHost zeroFIDStr true false).2 =
       (uploadContainerFile fbIdle zeroFIDStr true true).2) :=
  ⟨by decide, by decide, by decide, by decide, by decide, by decide,
   upload_key_depends_only_on_fid fbIdle fbIdleOtherHost zeroFIDStr cfIdle cfIdle
     true false (by decide) (by decide) (by decide) (by decide) (by decide)
     (by decide) (by decide)⟩

/-! ### Claim C7 — replicated positional write to a never-seen container -/

/-- Positional write into an absent (hence empty) file: the bytes land after
a zero-filled prefix of exactly `off` bytes. -/
theorem writeAt_nil (off : Nat) (data : List Nat) :
    writeAt [] off data = List.replicate off 0 ++ data := by
  simp [writeAt, List.take_replicate]

/-- Claim C7: a replicated positional write of `L` payload bytes at offset
`offset` for a container the receiving host has never seen (no registry
entry, no file on disk) succeeds with status 200, registers a descriptor for
the parsed identifier with an empty locator list whose recorded size ends up
at `offset + L` (that is, max of the zero initial size and `offset + L`),
and produces file contents whose bytes in `[offset, offset + L)` are exactly
the sent bytes — written at the offset, not appended. -/
theorem handleReplicate_fresh_container
    (fb : FileBox) (fileID : String) (offset L : Nat) (blobData : List Nat) (fid : FID)
    (hid : fileID ≠ "")
    (hnew : lookupA fb.files fileID = none)
    (hdisk : lookupA fb.disk (fb.storageDir ++ "/" ++ fileID) = none)
    (hpar : ParseFID fileID = some fid)
    (hlen : blobData.length = L) :
    (handleReplicate fb fileID offset L blobData).2 = 200 ∧
    (∃ cf, lookupA (handleReplicate fb fileID offset L blobData).1.files fileID = some cf ∧
       cf.fid = fid ∧ cf.blobs = [] ∧ cf.size = offset + L) ∧
    (∃ contents,
       lookupA (handleReplicate fb fileID offset L blobData).1.disk
         (fb.storageDir ++ "/" ++ fileID) = some contents ∧
       contents.length = offset + L ∧
       ∀ i, i < L → contents.getD (offset + i) 0 = blobData.getD i 0) := by
  by_cases h0 : 0 < offset + L
  · simp [handleReplicate, hid, hnew, hpar, hdisk, h0, lookupA_insertA_self, writeAt_nil]
    refine ⟨hlen, ?_⟩
    intro i hi
    rw [List.getElem?_append_right (by simp)]
    simp
  · simp [handleReplicate, hid, hnew, hpar, hdisk, h0, lookupA_insertA_self, writeAt_nil]
    refine ⟨by omega, hlen, ?_⟩
    intro i hi
    exact absurd hi (by omega)

/-- Witness for `handleReplicate_fresh_container`: the empty box receives a
replicated write of [9, 8, 7] at offset 2 for the zero container id. -/
theorem handleReplicate_fresh_container_witness :
    zeroFIDStr ≠ "" ∧
    lookupA fbEmpty100.files zeroFIDStr = none ∧
    lookupA fbEmpty100.disk (fbEmpty100.storageDir ++ "/" ++ zeroFIDStr) = none ∧
    ParseFID zeroFIDStr = some zeroFID ∧
    ([9, 8, 7] : List Nat).length = 3 ∧
    ((handleReplicate fbEmpty100 zeroFIDStr 2 3 [9, 8, 7]).2 = 200 ∧
     (∃ cf, lookupA (handleReplicate fbEmpty100 zeroFIDStr 2 3 [9, 8, 7]).1.files
          zeroFIDStr = some cf ∧
        cf.fid = zeroFID ∧ cf.blobs = [] ∧ cf.size = 2 + 3) ∧
     (∃ contents,
        lookupA (handleReplicate fbEmpty100 zeroFIDStr 2 3 [9, 8, 7]).1.disk
          (fbEmpty100.storageDir ++ "/" ++ zeroFIDStr) = some contents ∧
        contents.length = 2 + 3 ∧
        ∀ i, i < 3 → contents.getD (2 + i) 0 = ([9, 8, 7] : List Nat).getD i 0)) :=
  ⟨by decide, by decide, by decide, by decide, by decide,
   handleReplicate_fresh_container fbEmpty100 zeroFIDStr 2 3 [9, 8, 7] zeroFID
     (by decide) (by decide) (by decide) (by decide) (by decide)⟩

/-! ### Claim C6 — the recovery scan -/

theorem recoveredDesc_name (m : Nat) (sd : String) (e : DirEntry)
    (p : String × ContainerFile) (h : recoveredDesc m sd e = some p) :
    p.1 = e.name := by
  rcases e with ⟨name, isDir, stat⟩
  cases isDir
  case false =>
    cases hp : ParseFID name
    case none => simp [recoveredDesc, hp] at h
    case some fid =>
      by_cases hm : fid.machineID = m
      · cases stat with
        | none => simp [recoveredDesc, hp, hm] at h
        | some st =>
          simp [recoveredDesc, hp, hm] at h
          rw [← h]
      · simp [recoveredDesc, hp, hm] at h
  case true => simp [recoveredDesc] at h

theorem recoverStep_eq (m : Nat) (sd : String)
    (acc : List (String × ContainerFile) × List String) (e : DirEntry) :
    recoverStep m sd acc e =
      match recoveredDesc m sd e with
      | none => acc
      | some p => (insertA acc.1 p.1 p.2, acc.2 ++ [p.1]) := by
  rcases e with ⟨name, isDir, stat⟩
  cases isDir
  case false =>
    cases hp : ParseFID name
    case none => simp [recoverStep, recoveredDesc, hp]
    case some fid =>
      by_cases hm : fid.machineID = m
      · cases stat <;> simp [recoverStep, recoveredDesc, hp, hm]
      · simp [recoverStep, recoveredDesc, hp, hm]
  case true => simp [recoverStep, recoveredDesc]

theorem keys_sublist (m : Nat) (sd : String) (entries : List DirEntry) :
    ((entries.filterMap (recoveredDesc m sd)).map Prod.fst).Sublist
      (entries.map DirEntry.name) := by
  induction entries with
  | nil => simp
  | cons e rest ih =>
    rw [List.filterMap_cons]
    cases hd : recoveredDesc m sd e with
    | none => exact ih.cons e.name
    | some p =>
      rw [List.map_cons, List.map_cons, recoveredDesc_name m sd e p hd]
      exact ih.cons₂ e.name

theorem recoverFold_eq (m : Nat) (sd : String) (entries : List DirEntry) :
    ∀ (files0 : List (String × ContainerFile)) (trig0 : List String),
    (∀ e ∈ entries, lookupA files0 e.name = none) →
    (entries.map DirEntry.name).Nodup →
    entries.foldl (recoverStep m sd) (files0, trig0) =
      (files0 ++ entries.filterMap (recoveredDesc m sd),
       trig0 ++ (entries.filterMap (recoveredDesc m sd)).map Prod.fst) := by
  induction entries with
  | nil => intro files0 trig0 _ _; simp
  | cons e rest ih =>
    intro files0 trig0 hfresh hnodup
    rw [List.map_cons, List.nodup_cons] at hnodup
    rw [List.foldl_cons, recoverStep_eq]
    cases hd : recoveredDesc m sd e with
    | none =>
      rw [ih files0 trig0 (fun e' he' => hfresh e' (List.mem_cons_of_mem _ he')) hnodup.2]
      simp [List.filterMap_cons, hd]
    | some p =>
      have hp1 : p.1 = e.name := recoveredDesc_name m sd e p hd
      have hfr : lookupA files0 p.1 = none := hp1 ▸ hfresh e (List.mem_cons_self e rest)
      dsimp only
      rw [insertA_of_lookupA_none _ _ _ hfr]
      have hfresh' : ∀ e' ∈ rest, lookupA (files0 ++ [(p.1, p.2)]) e'.name = none := by
        intro e' he'
        rw [lookupA_append]
        rw [hfresh e' (List.mem_cons_of_mem _ he')]
        have hne : p.1 ≠ e'.name := by
          rw [hp1]
          intro hEq
          exact hnodup.1 (by rw [hEq]; exact List.mem_map.mpr ⟨e', he', rfl⟩)
        simp [lookupA, hne]
      rw [ih (files0 ++ [(p.1, p.2)]) (trig0 ++ [p.1]) hfresh' hnodup.2]
      simp [List.filterMap_cons, hd]

theorem not_in_recovered (m : Nat) (sd : String) (entries : List DirEntry) (e : DirEntry)
    (hnodup : (entries.map DirEntry.name).Nodup) (he : e ∈ entries)
    (hnone : recoveredDesc m sd e = none) :
    e.name ∉ (entries.filterMap (recoveredDesc m sd)).map Prod.fst := by
  intro hmem
  obtain ⟨p, hp, hname⟩ := List.mem_map.mp hmem
  obtain ⟨e', he', hd'⟩ := List.mem_filterMap.mp hp
  have hn : e'.name = e.name := by rw [← recoveredDesc_name m sd e' p hd', hname]
  have heq : e' = e := List.inj_on_of_nodup_map hnodup he' he hn
  rw [heq, hnone] at hd'
  exact Option.noConfusion hd'

theorem recoverFiles_registers_owned_entries (fb : FileBox) (entries : List DirEntry)
    (hempty : fb.files = []) (hnodup : (entries.map DirEntry.name).Nodup) :
    (∀ e ∈ entries, e.isDir = false → ∀ fid, ParseFID e.name = some fid →
       fid.machineID = fb.machineID → ∀ sz mt, e.stat = some (sz, mt) →
         lookupA (recoverFiles fb entries).1.files e.name =
           some { fid := fid, filePath := fb.storageDir ++ "/" ++ e.name, size := sz,
                  created := mt, uploaded := false, uploading := false, blobs := [] } ∧
         e.name ∈ (recoverFiles fb entries).2) ∧
    (∀ e ∈ entries, ∀ fid, ParseFID e.name = some fid → fid.machineID ≠ fb.machineID →
       lookupA (recoverFiles fb entries).1.files e.name = none ∧
       e.name ∉ (recoverFiles fb entries).2) ∧
    (∀ e ∈ entries, ParseFID e.name = none →
       lookupA (recoverFiles fb entries).1.files e.name = none ∧
       e.name ∉ (recoverFiles fb entries).2) := by
  have hchar := recoverFold_eq fb.machineID fb.storageDir entries fb.files []
    (by intro e he; simp [hempty, lookupA]) hnodup
  rw [hempty] at hchar
  have hfiles : (recoverFiles fb entries).1.files =
      entries.filterMap (recoveredDesc fb.machineID fb.storageDir) := by
    simp [recoverFiles, hchar, hempty]
  have htrig : (recoverFiles fb entries).2 =
      (entries.filterMap (recoveredDesc fb.machineID fb.storageDir)).map Prod.fst := by
    simp [recoverFiles, hempty, hchar]
  have hkeysnd :
      ((entries.filterMap (recoveredDesc fb.machineID fb.storageDir)).map Prod.fst).Nodup :=
    (keys_sublist fb.machineID fb.storageDir entries).nodup hnodup
  refine ⟨?_, ?_, ?_⟩
  · intro e he hdir fid hp hm sz mt hstat
    have hd : recoveredDesc fb.machineID fb.storageDir e =
        some (e.name, { fid := fid, filePath := fb.storageDir ++ "/" ++ e.name, size := sz,
                        created := mt, uploaded := false, uploading := false, blobs := [] }) := by
      simp [recoveredDesc, hdir, hp, hm, hstat]
    constructor
    · rw [hfiles]
      exact lookupA_of_mem_nodup _ _ _ hkeysnd (List.mem_filterMap.mpr ⟨e, he, hd⟩)
    · rw [htrig]
      exact List.mem_map.mpr ⟨_, List.mem_filterMap.mpr ⟨e, he, hd⟩, rfl⟩
  · intro e he fid hp hm
    have hd : recoveredDesc fb.machineID fb.storageDir e = none := by
      cases hdir : e.isDir <;> simp [recoveredDesc, hp, hm, hdir]
    have hnotin := not_in_recovered fb.machineID fb.storageDir entries e hnodup he hd
    exact ⟨by rw [hfiles]; exact (lookupA_eq_none_iff _ _).mpr hnotin,
           by rw [htrig]; exact hnotin⟩
  · intro e he hp
    have hd : recoveredDesc fb.machineID fb.storageDir e = none := by
      cases hdir : e.isDir <;> simp [recoveredDesc, hp, hdir]
    have hnotin := not_in_recovered fb.machineID fb.storageDir entries e hnodup he hd
    exact ⟨by rw [hfiles]; exact (lookupA_eq_none_iff _ _).mpr hnotin,
           by rw [htrig]; exact hnotin⟩

/-- Witness for `recoverFiles_registers_owned_entries` on a concrete listing
with one owned entry, one foreign entry, one unparseable name, and one
subdirectory. -/
theorem recoverFiles_registers_owned_entries_witness :
    fbEmpty100.files = [] ∧ (recEntries.map DirEntry.name).Nodup ∧
    ((∀ e ∈ recEntries, e.isDir = false → ∀ fid, ParseFID e.name = some fid →
        fid.machineID = fbEmpty100.machineID → ∀ sz mt, e.stat = some (sz, mt) →
          lookupA (recoverFiles fbEmpty100 recEntries).1.files e.name =
            some { fid := fid, filePath := fbEmpty100.storageDir ++ "/" ++ e.name,
                   size := sz, created := mt, uploaded := false, uploading := false,
                   blobs := [] } ∧
          e.name ∈ (recoverFiles fbEmpty100 recEntries).2) ∧
     (∀ e ∈ recEntries, ∀ fid, ParseFID e.name = some fid →
        fid.machineID ≠ fbEmpty100.machineID →
          lookupA (recoverFiles fbEmpty100 recEntries).1.files e.name = none ∧
          e.name ∉ (recoverFiles fbEmpty100 recEntries).2) ∧
     (∀ e ∈ recEntries, ParseFID e.name = none →
        lookupA (recoverFiles fbEmpty100 recEntries).1.files e.name = none ∧
        e.name ∉ (recoverFiles fbEmpty100 recEntries).2)) :=
  ⟨by decide, by decide,
   recoverFiles_registers_owned_entries fbEmpty100 recEntries (by decide) (by decide)⟩

/-! ### Claim C4 — FID generate / render / parse round-trip

The codec lemmas below relate the Go fmt %08x rendering (minimal hex digits,
zero-padded to width 8) to the fixed-width digit view, and the encoding/hex
pairwise decoding back to base-256 digits; the shift/or byte packing is
bridged to positional arithmetic. -/

theorem fixedHex_length (k n : Nat) : (fixedHex k n).length = k := by
  induction k generalizing n with
  | zero => rfl
  | succ k ih => simp [fixedHex, ih]

theorem fixedHex_zero (k : Nat) : fixedHex k 0 = List.replicate k 0 := by
  induction k with
  | zero => rfl
  | succ k ih => rw [fixedHex, Nat.zero_div, ih, Nat.zero_mod, ← List.replicate_succ']

theorem hexLsdAux_irrel (f g n : Nat) (hf : n ≤ f) (hg : n ≤ g) :
    hexLsdAux f n = hexLsdAux g n := by
  induction f generalizing g n with
  | zero =>
    interval_cases n
    cases g <;> simp [hexLsdAux]
  | succ f ih =>
    cases g with
    | zero =>
      interval_cases n
      simp [hexLsdAux]
    | succ g =>
      by_cases h0 : n = 0
      · simp [hexLsdAux, h0]
      · have hd : n / 16 < n := Nat.div_lt_self (Nat.pos_of_ne_zero h0) (by omega)
        simp only [hexLsdAux, h0, if_false]
        rw [ih g (n / 16) (by omega) (by omega)]

theorem hexLsd_pos (n : Nat) (h : 0 < n) : hexLsd n = n % 16 :: hexLsd (n / 16) := by
  have hd : n / 16 < n := Nat.div_lt_self h (by omega)
  cases hn : n with
  | zero => omega
  | succ m =>
    show hexLsdAux (m + 1) (m + 1) = (m + 1) % 16 :: hexLsd ((m + 1) / 16)
    rw [hexLsdAux]
    simp only [Nat.succ_ne_zero, if_false]
    rw [hexLsdAux_irrel m ((m + 1) / 16) ((m + 1) / 16) (by omega) (by omega)]
    rfl

theorem pad_digits (k n : Nat) (h : n < 16 ^ (k + 1)) :
    List.replicate ((k + 1) - (goHexMinDigits n).length) 0 ++ goHexMinDigits n =
      fixedHex (k + 1) n := by
  induction k generalizing n with
  | zero =>
    by_cases h0 : n = 0
    · subst h0
      simp [goHexMinDigits, fixedHex]
    · have hq : n / 16 = 0 := Nat.div_eq_of_lt (by simpa using h)
      have h1 : goHexMinDigits n = [n % 16] := by
        rw [goHexMinDigits, if_neg h0, hexLsd_pos n (Nat.pos_of_ne_zero h0), hq]
        rfl
      simp [h1, fixedHex, hq, fixedHex_zero]
  | succ k ih =>
    by_cases h0 : n = 0
    · subst h0
      simp only [goHexMinDigits, if_pos rfl, List.length_cons, List.length_nil]
      rw [fixedHex_zero, List.replicate_succ' (k + 1) 0]
      simp
    · have hsplit : goHexMinDigits n = (hexLsd (n / 16)).reverse ++ [n % 16] := by
        rw [goHexMinDigits, if_neg h0, hexLsd_pos n (Nat.pos_of_ne_zero h0)]
        simp
      by_cases hq : n / 16 = 0
      · have h1 : goHexMinDigits n = [n % 16] := by
          rw [hsplit, hq]
          rfl
        rw [h1, fixedHex, hq, fixedHex_zero]
        simp
      · have hq16 : n / 16 < 16 ^ (k + 1) := by
          rw [Nat.div_lt_iff_lt_mul (by omega)]
          calc n < 16 ^ (k + 2) := h
          _ = 16 ^ (k + 1) * 16 := by ring
        have hmd : goHexMinDigits (n / 16) = (hexLsd (n / 16)).reverse := by
          rw [goHexMinDigits, if_neg hq]
        have hlen : (goHexMinDigits n).length = (goHexMinDigits (n / 16)).length + 1 := by
          rw [hsplit, hmd]
          simp
        rw [hsplit, fixedHex, ← ih (n / 16) hq16, hmd]
        simp [List.length_append, Nat.succ_sub_succ, List.append_assoc]

theorem goHex8_eq (n : Nat) (h : n < 16 ^ 8) :
    goHex8 n = (fixedHex 8 n).map hexDigitChar := by
  rw [goHex8, pad_digits 7 n h]

theorem goHex8_length (n : Nat) (h : n < 16 ^ 8) : (goHex8 n).length = 8 := by
  rw [goHex8_eq n h, List.length_map, fixedHex_length]

theorem decode_hexDigitChar : ∀ d, d < 16 → decodeHexChar (hexDigitChar d) = some d := by
  decide

theorem fixedHex_mem_lt (k n d : Nat) (h : d ∈ fixedHex k n) : d < 16 := by
  induction k generalizing n with
  | zero => simp [fixedHex] at h
  | succ k ih =>
    rw [fixedHex] at h
    rcases List.mem_append.mp h with h1 | h1
    · exact ih (n / 16) h1
    · simp at h1
      omega

theorem decodeHexPairs_append :
    ∀ (A : List Char) (bs : List Nat) (B : List Char),
      decodeHexPairs A = some bs →
      decodeHexPairs (A ++ B) = (decodeHexPairs B).map (fun cs => bs ++ cs)
  | [], bs, B, h => by
    simp [decodeHexPairs] at h
    subst h
    cases hB : decodeHexPairs B <;> simp [hB]
  | [c], bs, B, h => by
    simp [decodeHexPairs] at h
  | c1 :: c2 :: rest, bs, B, h => by
    rw [decodeHexPairs] at h
    cases h1 : decodeHexChar c1 with
    | none => rw [h1] at h; exact absurd h (by simp)
    | some hi =>
      cases h2 : decodeHexChar c2 with
      | none => rw [h1, h2] at h; exact absurd h (by simp)
      | some lo =>
        rw [h1, h2] at h
        cases hr : decodeHexPairs rest with
        | none => rw [hr] at h; exact absurd h (by simp)
        | some cs =>
          rw [hr] at h
          simp at h
          show decodeHexPairs (c1 :: c2 :: (rest ++ B)) = _
          rw [decodeHexPairs, h1, h2, decodeHexPairs_append rest cs B hr]
          cases hB : decodeHexPairs B <;> simp [hB, ← h]

theorem decode_fixedHex (k n : Nat) :
    decodeHexPairs ((fixedHex (2 * k) n).map hexDigitChar) = some (fixedBytes k n) := by
  induction k generalizing n with
  | zero => rfl
  | succ k ih =>
    have h2 : 2 * (k + 1) = 2 * k + 1 + 1 := by ring
    have hsh : fixedHex (2 * (k + 1)) n =
        fixedHex (2 * k) (n / 256) ++ [n / 16 % 16, n % 16] := by
      rw [h2, fixedHex, fixedHex, Nat.div_div_eq_div_mul]
      norm_num
    rw [hsh, List.map_append, decodeHexPairs_append _ _ _ (ih (n / 256))]
    have e1 := decode_hexDigitChar (n / 16 % 16) (by omega)
    have e2 := decode_hexDigitChar (n % 16) (by omega)
    have hb : decodeHexPairs ([n / 16 % 16, n % 16].map hexDigitChar) = some [n % 256] := by
      simp [decodeHexPairs, e1, e2]
      omega
    rw [hb]
    simp [fixedBytes]

theorem shiftLeft_lor_eq_add (a b k : Nat) (hb : b < 2 ^ k) :
    (a <<< k) ||| b = a * 2 ^ k + b := by
  induction k generalizing a b with
  | zero =>
    interval_cases b
    simp
  | succ k ih =>
    have hb2 : b / 2 < 2 ^ k := by omega
    have hsplit : b = Nat.bit (decide (b % 2 = 1)) (b / 2) := by
      rw [Nat.bit_val]
      rcases Nat.mod_two_eq_zero_or_one b with h | h <;> rw [h] <;> simp <;> omega
    have hshift : a <<< (k + 1) = Nat.bit false (a <<< k) := by
      rw [Nat.shiftLeft_eq, Nat.shiftLeft_eq, Nat.bit_val]
      simp
      ring
    rw [hshift]
    conv_lhs => rw [hsplit]
    rw [Nat.lor_bit, Nat.bit_val, ih a (b / 2) hb2]
    rcases Nat.mod_two_eq_zero_or_one b with h | h
    · have hd : (false || decide (b % 2 = 1)).toNat = 0 := by simp [h]
      have hb' : 2 * (b / 2) = b := by omega
      rw [hd]
      calc 2 * (a * 2 ^ k + b / 2) + 0 = a * 2 ^ (k + 1) + 2 * (b / 2) := by ring
      _ = a * 2 ^ (k + 1) + b := by rw [hb']
    · have hd : (false || decide (b % 2 = 1)).toNat = 1 := by simp [h]
      have hb' : 2 * (b / 2) + 1 = b := by omega
      rw [hd]
      calc 2 * (a * 2 ^ k + b / 2) + 1 = a * 2 ^ (k + 1) + (2 * (b / 2) + 1) := by ring
      _ = a * 2 ^ (k + 1) + b := by rw [hb']

theorem word4_or (b0 b1 b2 b3 : Nat) (_h0 : b0 < 256) (h1 : b1 < 256) (h2 : b2 < 256)
    (h3 : b3 < 256) :
    b0 <<< 24 ||| b1 <<< 16 ||| b2 <<< 8 ||| b3 =
      b0 * 2 ^ 24 + b1 * 2 ^ 16 + b2 * 2 ^ 8 + b3 := by
  rw [Nat.lor_assoc, Nat.lor_assoc]
  rw [shiftLeft_lor_eq_add b2 b3 8 (by omega)]
  rw [shiftLeft_lor_eq_add b1 _ 16 (by omega)]
  rw [shiftLeft_lor_eq_add b0 _ 24 (by omega)]
  ring

theorem word_roundtrip (n : Nat) (h : n < 2 ^ 32) :
    (n / 2 ^ 24 % 256) <<< 24 ||| (n / 2 ^ 16 % 256) <<< 16 |||
      (n / 2 ^ 8 % 256) <<< 8 ||| n % 256 = n := by
  rw [word4_or _ _ _ _ (by omega) (by omega) (by omega) (by omega)]
  omega

theorem fixedBytes_length (k n : Nat) : (fixedBytes k n).length = k := by
  induction k generalizing n with
  | zero => rfl
  | succ k ih => simp [fixedBytes, ih]

theorem fixedBytes_four (n : Nat) :
    fixedBytes 4 n = [n / 2 ^ 24 % 256, n / 2 ^ 16 % 256, n / 2 ^ 8 % 256, n % 256] := by
  norm_num [fixedBytes, Nat.div_div_eq_div_mul]

theorem sha256_mem_lt (msg : List Nat) : ∀ b ∈ sha256 msg, b < 256 := by
  intro b hb
  simp only [sha256, List.mem_flatten, List.mem_map] at hb
  obtain ⟨l, ⟨w, _, hw⟩, hbl⟩ := hb
  rw [← hw] at hbl
  simp [wordToBytes] at hbl
  rcases hbl with h | h | h | h <;> omega

theorem getD_lt_of_all (l : List Nat) (i : Nat) (hh : ∀ b ∈ l, b < 256) :
    l.getD i 0 < 256 := by
  by_cases hlen : i < l.length
  · rw [List.getD_eq_getElem l 0 hlen]
    exact hh _ (List.getElem_mem hlen)
  · rw [List.getD_eq_default l 0 (by omega)]
    omega

theorem parse_toHexString (f : FID) (hm : f.machineID < 2 ^ 32) (ht : f.timestamp < 2 ^ 32)
    (hsq : f.sequence < 2 ^ 32) (hh : ∀ b ∈ f.hash, b < 256) :
    ParseFID f.toHexString =
      some { machineID := f.machineID, timestamp := f.timestamp, sequence := f.sequence,
             hash := fixedBytes 4 ((f.hash.getD 0 0) <<< 24 ||| (f.hash.getD 1 0) <<< 16 |||
               (f.hash.getD 2 0) <<< 8 ||| f.hash.getD 3 0) ++ List.replicate 4 0 } := by
  have hb0 := getD_lt_of_all f.hash 0 hh
  have hb1 := getD_lt_of_all f.hash 1 hh
  have hb2 := getD_lt_of_all f.hash 2 hh
  have hb3 := getD_lt_of_all f.hash 3 hh
  set hw := (f.hash.getD 0 0) <<< 24 ||| (f.hash.getD 1 0) <<< 16 |||
    (f.hash.getD 2 0) <<< 8 ||| f.hash.getD 3 0 with hhw
  have hwsum : hw = (f.hash.getD 0 0) * 2 ^ 24 + (f.hash.getD 1 0) * 2 ^ 16 +
      (f.hash.getD 2 0) * 2 ^ 8 + f.hash.getD 3 0 :=
    word4_or _ _ _ _ hb0 hb1 hb2 hb3
  have hwlt : hw < 2 ^ 32 := by omega
  have hstr : f.toHexString = String.mk (goHex8 f.machineID ++ goHex8 f.timestamp ++
      goHex8 f.sequence ++ goHex8 hw) := rfl
  have hdec : decodeHexPairs (goHex8 f.machineID ++ goHex8 f.timestamp ++
      goHex8 f.sequence ++ goHex8 hw) =
      some (fixedBytes 4 f.machineID ++ (fixedBytes 4 f.timestamp ++
        (fixedBytes 4 f.sequence ++ fixedBytes 4 hw))) := by
    rw [goHex8_eq _ (by omega), goHex8_eq _ (by omega), goHex8_eq _ (by omega),
      goHex8_eq _ (by omega)]
    rw [List.append_assoc, List.append_assoc]
    have d4 : ∀ n : Nat, decodeHexPairs ((fixedHex 8 n).map hexDigitChar) =
        some (fixedBytes 4 n) := fun n => decode_fixedHex 4 n
    rw [decodeHexPairs_append _ _ _ (d4 f.machineID)]
    rw [decodeHexPairs_append _ _ _ (d4 f.timestamp)]
    rw [decodeHexPairs_append _ _ _ (d4 f.sequence)]
    rw [d4 hw]
    rfl
  have hlen32 : (goHex8 f.machineID ++ goHex8 f.timestamp ++
      goHex8 f.sequence ++ goHex8 hw).length = 32 := by
    simp [goHex8_length _ (show f.machineID < 16 ^ 8 by omega),
      goHex8_length _ (show f.timestamp < 16 ^ 8 by omega),
      goHex8_length _ (show f.sequence < 16 ^ 8 by omega),
      goHex8_length _ (show hw < 16 ^ 8 by omega)]
  rw [hstr, ParseFID]
  have htl : (String.mk (goHex8 f.machineID ++ goHex8 f.timestamp ++
      goHex8 f.sequence ++ goHex8 hw)).toList =
      goHex8 f.machineID ++ goHex8 f.timestamp ++ goHex8 f.sequence ++ goHex8 hw := rfl
  have hslen : (String.mk (goHex8 f.machineID ++ goHex8 f.timestamp ++
      goHex8 f.sequence ++ goHex8 hw)).length = 32 := hlen32
  rw [if_pos hslen, htl, hdec]
  dsimp only
  have hblen : (fixedBytes 4 f.machineID ++ (fixedBytes 4 f.timestamp ++
      (fixedBytes 4 f.sequence ++ fixedBytes 4 hw))).length = 16 := by
    simp [fixedBytes_length]
  rw [if_pos hblen]
  rw [fixedBytes_four f.machineID, fixedBytes_four f.timestamp,
    fixedBytes_four f.sequence, fixedBytes_four hw]
  simp only [List.cons_append, List.nil_append, List.getD_cons_zero, List.getD_cons_succ,
    List.drop_succ_cons, List.drop_zero]
  rw [word_roundtrip f.machineID hm, word_roundtrip f.timestamp ht,
    word_roundtrip f.sequence hsq]

/-- Claim C4: generating a FID (for any machine id and any wall-clock second
that fit in 32 bits, as every real one does until 2106, and any counter
state), rendering it as its 32-character hex string, and parsing that string
back reproduces the machine id, timestamp, and sequence fields bit-for-bit. -/
theorem generate_render_parse_roundtrip (machineID now counter : Nat)
    (hm : machineID < 2 ^ 32) (ht : now < 2 ^ 32) :
    ∃ f, ParseFID (GenerateWithMachineID machineID now counter).1.toHexString = some f ∧
      f.machineID = (GenerateWithMachineID machineID now counter).1.machineID ∧
      f.timestamp = (GenerateWithMachineID machineID now counter).1.timestamp ∧
      f.sequence = (GenerateWithMachineID machineID now counter).1.sequence := by
  refine ⟨_, parse_toHexString (GenerateWithMachineID machineID now counter).1 hm ht ?_ ?_,
    rfl, rfl, rfl⟩
  · exact Nat.mod_lt _ (by norm_num)
  · intro b hb
    exact sha256_mem_lt _ b (List.mem_of_mem_take hb)

/-- Witness for `generate_render_parse_roundtrip` at machine id 5, Unix time
1700000000, counter 0. -/
theorem generate_render_parse_roundtrip_witness :
    (5 : Nat) < 2 ^ 32 ∧ (1700000000 : Nat) < 2 ^ 32 ∧
    (∃ f, ParseFID (GenerateWithMachineID 5 1700000000 0).1.toHexString = some f ∧
       f.machineID = (GenerateWithMachineID 5 1700000000 0).1.machineID ∧
       f.timestamp = (GenerateWithMachineID 5 1700000000 0).1.timestamp ∧
       f.sequence = (GenerateWithMachineID 5 1700000000 0).1.sequence) :=
  ⟨by decide, by decide, generate_render_parse_roundtrip 5 1700000000 0 (by decide) (by decide)⟩

/-! ### Claim C9 — uniqueness of same-process identifiers -/

/-- The sequence counter after `n` generations is the initial value plus `n`,
modulo 2 ^ 32 (Go `atomic.AddUint32` wraps). -/
theorem runCounter_eq (m : Nat) (times : Nat → Nat) (c0 : Nat) (n : Nat)
    (hc : c0 < 2 ^ 32) : runCounter m times c0 n = (c0 + n) % 2 ^ 32 := by
  induction n with
  | zero =>
    show c0 = (c0 + 0) % 2 ^ 32
    omega
  | succ n ih =>
    show ((runCounter m times c0 n) + 1) % 2 ^ 32 = (c0 + (n + 1)) % 2 ^ 32
    rw [ih]
    omega

/-- Claim C9 counterexample: with machine id 0, a constant clock, and initial
counter 0, the identifier generated at index 0 equals the identifier
generated 2 ^ 32 generations later — the uint32 sequence counter wraps around
and, the timestamps being equal, every packed field coincides. So "any two
identifiers generated by the same process are never equal" is false as
stated. -/
theorem generated_fids_can_repeat_after_wraparound :
    runFID 0 (fun _ => 0) 0 0 = runFID 0 (fun _ => 0) 0 (2 ^ 32) ∧
    (0 : Nat) ≠ 2 ^ 32 := by
  constructor
  · have h2 : runCounter 0 (fun _ => 0) 0 (2 ^ 32) = 0 := by
      rw [runCounter_eq 0 (fun _ => 0) 0 (2 ^ 32) (by norm_num)]
      norm_num
    rw [runFID, runFID, h2]
    rfl
  · norm_num

/-- Claim C9 amended: any two identifiers generated by the same process
fewer than 2 ^ 32 generations apart differ in their sequence field, and are
therefore never equal (whatever the machine id and however the clock moves);
only after the uint32 counter wraps a full 2 ^ 32 generations can a sequence
value, and hence an identifier, repeat. -/
theorem generated_fids_distinct_within_window (m : Nat) (times : Nat → Nat)
    (c0 i j : Nat) (hc : c0 < 2 ^ 32) (hij : i < j) (hwin : j - i < 2 ^ 32) :
    (runFID m times c0 i).sequence ≠ (runFID m times c0 j).sequence ∧
    runFID m times c0 i ≠ runFID m times c0 j := by
  have hseq : ∀ n, (runFID m times c0 n).sequence = (c0 + n + 1) % 2 ^ 32 := by
    intro n
    show ((runCounter m times c0 n) + 1) % 2 ^ 32 = _
    rw [runCounter_eq m times c0 n hc]
    omega
  have hne : (c0 + i + 1) % 2 ^ 32 ≠ (c0 + j + 1) % 2 ^ 32 := by omega
  constructor
  · rw [hseq i, hseq j]
    exact hne
  · intro he
    have hcong := congrArg FID.sequence he
    rw [hseq i, hseq j] at hcong
    exact hne hcong

/-- Witness for `generated_fids_distinct_within_window` at the first two
generations of a run. -/
theorem generated_fids_distinct_within_window_witness :
    (0 : Nat) < 2 ^ 32 ∧ (0 : Nat) < 1 ∧ 1 - 0 < 2 ^ 32 ∧
    ((runFID 0 (fun _ => 0) 0 0).sequence ≠ (runFID 0 (fun _ => 0) 0 1).sequence ∧
     runFID 0 (fun _ => 0) 0 0 ≠ runFID 0 (fun _ => 0) 0 1) :=
  ⟨by norm_num, by norm_num, by norm_num,
   generated_fids_distinct_within_window 0 (fun _ => 0) 0 0 1 (by norm_num)
     (by norm_num) (by norm_num)⟩
